import Mathlib

/-!
Verification of the AWS RESTJSON composite encoder
(`private/protocol/restjson/encode.go`).

The encoder routes values tagged with a `protocol.Target` either to the
REST (structural) encoder or to the JSON (body) encoder, latches routing
errors in a sticky `err` field, and merges both sub-encoders' output at
`Encode` time.

Shallow embedding: the two sub-encoders are external to the package, so
they are modelled as event traces — each forwarded call is recorded as a
`SubCall` appended to the owning sub-encoder's trace.  Marshalers,
callbacks and metadata are opaque to the composite encoder (it forwards
them uninspected), so they are modelled as opaque `Nat` tokens.  The
finalize results of the two sub-encoders (`rest.Encoder.Encode` and
`json.Encoder.Encode`) are likewise external and are supplied to the
embedded `Encode` as an explicit `FinalizeEnv`.
-/

set_option autoImplicit false

namespace RestJson

/-- The `protocol.Target` enumeration.  Only its variants matter to the
composite encoder; the spec's data model lists exactly these six. -/
inductive Target where
  | Path
  | Query
  | Header
  | Headers
  | Body
  | Payload
  deriving DecidableEq

/-- Modelled from the spec: the textual rendering of a `Target` used by
the `%s` format verb in the latched error messages.  `protocol.Target`'s
`String` method is not part of the sources under verification; the spec
names the variants `Path`, `Query`, `Header`, `Headers`, `Body`,
`Payload`, so the rendering uses those names. -/
def Target.goString : Target → String
  | .Path => "Path"
  | .Query => "Query"
  | .Header => "Header"
  | .Headers => "Headers"
  | .Body => "Body"
  | .Payload => "Payload"

/-- One call forwarded to a sub-encoder.  The opaque `Nat` argument is the
marshaler / callback token, `meta` the opaque metadata bag; the composite
encoder forwards both without inspecting them. -/
inductive SubCall where
  | value (t : Target) (k : String) (v : Nat) (meta : Nat)
  | stream (t : Target) (k : String) (v : Nat) (meta : Nat)
  | list (t : Target) (k : String) (fn : Nat) (meta : Nat)
  | map (t : Target) (k : String) (fn : Nat) (meta : Nat)
  | fields (t : Target) (k : String) (m : Nat) (meta : Nat)
  deriving DecidableEq

/-- The composite `Encoder` struct: the captured HTTP method, the two
sub-encoders (modelled by the trace of calls forwarded to each), and the
latched error (`err error`, modelled as `Option String`). -/
structure Encoder where
  method : String
  reqEncoder : List SubCall
  bodyEncoder : List SubCall
  err : Option String
  deriving DecidableEq

/-- `NewEncoder`: captures the request's method, fresh sub-encoders,
no latched error (Go zero value). -/
def NewEncoder (method : String) : Encoder :=
  { method := method, reqEncoder := [], bodyEncoder := [], err := none }

/-- The message latched by `SetValue`'s default case:
`fmt.Errorf("unknown SetValue restjson encode target, %s, %s", t, k)`. -/
def valueErrMsg (t : Target) (k : String) : String :=
  "unknown SetValue restjson encode target, " ++ t.goString ++ ", " ++ k

/-- The message latched by `SetStream`'s default case:
`fmt.Errorf("invalid target %s, for SetStream, must be PayloadTarget", t)`. -/
def streamErrMsg (t : Target) : String :=
  "invalid target " ++ t.goString ++ ", for SetStream, must be PayloadTarget"

/-- The message latched by `SetList`'s default case:
`fmt.Errorf("unknown SetList restjson encode target, %s, %s", t, k)`. -/
def listErrMsg (t : Target) (k : String) : String :=
  "unknown SetList restjson encode target, " ++ t.goString ++ ", " ++ k

/-- The message latched by `SetMap`'s default case:
`fmt.Errorf("unknown SetMap restjson encode target, %s, %s", t, k)`. -/
def mapErrMsg (t : Target) (k : String) : String :=
  "unknown SetMap restjson encode target, " ++ t.goString ++ ", " ++ k

/-- The message latched by `SetFields`'s default case:
`fmt.Errorf("unknown SetMarshaler restjson encode target, %s, %s", t, k)`. -/
def fieldsErrMsg (t : Target) (k : String) : String :=
  "unknown SetMarshaler restjson encode target, " ++ t.goString ++ ", " ++ k

/-- `Encoder.SetValue`: guard on the latch, then switch on the target.
`Path`/`Query`/`Header` fall through to the REST encoder; `Body`/`Payload`
go to the REST encoder when the method is `GET` and to the JSON body
encoder otherwise; the default (`Headers`) latches an error. -/
def Encoder.SetValue (e : Encoder) (t : Target) (k : String) (v meta : Nat) : Encoder :=
  if e.err.isSome then e
  else
    match t with
    | .Path | .Query | .Header =>
      { e with reqEncoder := e.reqEncoder ++ [.value t k v meta] }
    | .Body | .Payload =>
      if e.method == "GET" then
        { e with reqEncoder := e.reqEncoder ++ [.value t k v meta] }
      else
        { e with bodyEncoder := e.bodyEncoder ++ [.value t k v meta] }
    | .Headers =>
      { e with err := some (valueErrMsg t k) }

/-- `Encoder.SetStream`: guard on the latch; `Payload` goes to the REST
encoder, every other target latches an error. -/
def Encoder.SetStream (e : Encoder) (t : Target) (k : String) (v meta : Nat) : Encoder :=
  if e.err.isSome then e
  else
    match t with
    | .Payload =>
      { e with reqEncoder := e.reqEncoder ++ [.stream t k v meta] }
    | _ =>
      { e with err := some (streamErrMsg t) }

/-- `Encoder.SetList`: guard on the latch; `Header`/`Query` fall through
to the REST encoder, `Body` goes to the JSON body encoder, the default
latches an error. -/
def Encoder.SetList (e : Encoder) (t : Target) (k : String) (fn meta : Nat) : Encoder :=
  if e.err.isSome then e
  else
    match t with
    | .Header | .Query =>
      { e with reqEncoder := e.reqEncoder ++ [.list t k fn meta] }
    | .Body =>
      { e with bodyEncoder := e.bodyEncoder ++ [.list t k fn meta] }
    | _ =>
      { e with err := some (listErrMsg t k) }

/-- `Encoder.SetMap`: guard on the latch; `Query`/`Headers` fall through
to the REST encoder, `Body` goes to the JSON body encoder, the default
latches an error. -/
def Encoder.SetMap (e : Encoder) (t : Target) (k : String) (fn meta : Nat) : Encoder :=
  if e.err.isSome then e
  else
    match t with
    | .Query | .Headers =>
      { e with reqEncoder := e.reqEncoder ++ [.map t k fn meta] }
    | .Body =>
      { e with bodyEncoder := e.bodyEncoder ++ [.map t k fn meta] }
    | _ =>
      { e with err := some (mapErrMsg t k) }

/-- `Encoder.SetFields`: guard on the latch; `Payload` falls through to
`Body`, both going to the JSON body encoder, the default latches an
error (whose text names `SetMarshaler`). -/
def Encoder.SetFields (e : Encoder) (t : Target) (k : String) (m meta : Nat) : Encoder :=
  if e.err.isSome then e
  else
    match t with
    | .Payload | .Body =>
      { e with bodyEncoder := e.bodyEncoder ++ [.fields t k m meta] }
    | _ =>
      { e with err := some (fieldsErrMsg t k) }

/-- The outcome of finalizing the two external sub-encoders, supplied to
the embedded `Encode`: `rest.Encoder.Encode` yields
`(req, payloadBody, err)` and `json.Encoder.Encode` yields
`(jsonBody, err)`.  Readers and the request object are opaque tokens. -/
structure FinalizeEnv where
  restReq : Option Nat
  restPayload : Option Nat
  restErr : Option String
  jsonBody : Option Nat
  jsonErr : Option String
  deriving DecidableEq

/-- The triple returned by `Encoder.Encode`:
`(*http.Request, io.ReadSeeker, error)`. -/
structure EncodeResult where
  req : Option Nat
  body : Option Nat
  err : Option String
  deriving DecidableEq

/-- `Encoder.Encode`, as a state transformer returning the encoder's
state after the call together with the result triple.  It finalizes the
REST encoder (propagating its error), then the JSON encoder (propagating
its error), rejects the case where both a payload and a JSON body were
produced, and otherwise returns the request with the payload body if
present, else the JSON body.  Note the method never reads or writes the
composite encoder's own fields (`e.err` in particular is not consulted),
so the state out equals the state in. -/
def Encoder.Encode (e : Encoder) (env : FinalizeEnv) : Encoder × EncodeResult :=
  match env.restErr with
  | some err => (e, { req := none, body := none, err := some err })
  | none =>
    match env.jsonErr with
    | some err => (e, { req := none, body := none, err := some err })
    | none =>
      let havePayload := env.restPayload.isSome
      let haveJSON := env.jsonBody.isSome
      if (havePayload == haveJSON) && haveJSON then
        (e, { req := none, body := none,
              err := some "unexpected JSON body and request payload for AWSMarshaler" })
      else
        let body := match env.restPayload with
          | some b => some b
          | none => env.jsonBody
        (e, { req := env.restReq, body := body, err := none })

/-- `startsWithChars sub l` holds when `l` begins with `sub`.  Used to
formalize "the error message names the operation / the key". -/
def startsWithChars : List Char → List Char → Bool
  | [], _ => true
  | _ :: _, [] => false
  | a :: sub, b :: l => a == b && startsWithChars sub l

/-- `occursIn sub l` holds when `sub` appears as a contiguous run
somewhere in `l`. -/
def occursIn (sub : List Char) : List Char → Bool
  | [] => startsWithChars sub []
  | c :: l => startsWithChars sub (c :: l) || occursIn sub l

/-- A message `msg` names `part` when `part` occurs contiguously in it. -/
def namesPart (part msg : String) : Bool :=
  occursIn part.data msg.data

theorem startsWithChars_self (l : List Char) : startsWithChars l l = true := by
  induction l with
  | nil => rfl
  | cons a l ih => simp [startsWithChars, ih]

theorem startsWithChars_append (sub l rest : List Char)
    (h : startsWithChars sub l = true) : startsWithChars sub (l ++ rest) = true := by
  induction sub generalizing l with
  | nil => rfl
  | cons a sub ih =>
    cases l with
    | nil => simp [startsWithChars] at h
    | cons b l =>
      simp [startsWithChars] at h ⊢
      exact ⟨h.1, ih l h.2⟩

theorem occursIn_append_left (sub l rest : List Char)
    (h : occursIn sub l = true) : occursIn sub (l ++ rest) = true := by
  induction l with
  | nil =>
    cases sub with
    | nil => cases rest with
      | nil => rfl
      | cons c cs => simp [occursIn, startsWithChars]
    | cons a as => simp [occursIn, startsWithChars] at h
  | cons c l ih =>
    simp only [occursIn, Bool.or_eq_true] at h ⊢
    cases h with
    | inl h => exact Or.inl (startsWithChars_append _ _ _ h)
    | inr h => exact Or.inr (ih h)

theorem occursIn_append_self (sub l : List Char) :
    occursIn sub (l ++ sub) = true := by
  induction l with
  | nil =>
    cases sub with
    | nil => rfl
    | cons a as =>
      simp only [List.nil_append, occursIn, Bool.or_eq_true]
      exact Or.inl (startsWithChars_self _)
  | cons c l ih =>
    simp only [List.cons_append, occursIn, Bool.or_eq_true]
    exact Or.inr ih

theorem data_append (a b : String) : (a ++ b).data = a.data ++ b.data := rfl

theorem namesPart_left (part pre rest : String)
    (h : occursIn part.data pre.data = true) :
    namesPart part (pre ++ rest) = true := by
  unfold namesPart
  rw [data_append]
  exact occursIn_append_left _ _ _ h

theorem namesPart_right (part pre : String) :
    namesPart part (pre ++ part) = true := by
  unfold namesPart
  rw [data_append]
  exact occursIn_append_self _ _

/-- Claim C2: a scalar set via `SetValue` with target `Body` or `Payload`
goes to the REST (structural) encoder exactly when the method string is
`"GET"` (case-sensitive), and to the JSON (body) encoder for every other
method string; in each case the other sub-encoder receives nothing and
the rest of the encoder state is unchanged. -/
theorem setValue_body_payload_method_routing
    (e : Encoder) (t : Target) (k : String) (v meta : Nat)
    (he : e.err = none) (ht : t = Target.Body ∨ t = Target.Payload) :
    (e.method = "GET" →
      e.SetValue t k v meta =
        { e with reqEncoder := e.reqEncoder ++ [SubCall.value t k v meta] }) ∧
    (e.method ≠ "GET" →
      e.SetValue t k v meta =
        { e with bodyEncoder := e.bodyEncoder ++ [SubCall.value t k v meta] }) := by
  rcases ht with rfl | rfl <;> constructor <;> intro hm <;>
    simp [Encoder.SetValue, he, hm]

/-- Witness for C2 at concrete inputs: method `"GET"` redirects a `Body`
scalar to the structural encoder, method `"POST"` sends it to the body
encoder, and the lowercase method `"get"` does not trigger the redirect. -/
theorem setValue_body_payload_method_routing_witness :
    (NewEncoder "GET").err = none ∧
    (NewEncoder "GET").SetValue Target.Body "name" 5 0 =
      { NewEncoder "GET" with
          reqEncoder := (NewEncoder "GET").reqEncoder ++ [SubCall.value Target.Body "name" 5 0] } ∧
    (NewEncoder "POST").SetValue Target.Body "name" 5 0 =
      { NewEncoder "POST" with
          bodyEncoder := (NewEncoder "POST").bodyEncoder ++ [SubCall.value Target.Body "name" 5 0] } ∧
    (NewEncoder "get").SetValue Target.Payload "name" 5 0 =
      { NewEncoder "get" with
          bodyEncoder := (NewEncoder "get").bodyEncoder ++ [SubCall.value Target.Payload "name" 5 0] } :=
  ⟨rfl,
   (setValue_body_payload_method_routing (NewEncoder "GET") Target.Body "name" 5 0
      rfl (Or.inl rfl)).1 rfl,
   (setValue_body_payload_method_routing (NewEncoder "POST") Target.Body "name" 5 0
      rfl (Or.inl rfl)).2 (by decide),
   (setValue_body_payload_method_routing (NewEncoder "get") Target.Payload "name" 5 0
      rfl (Or.inr rfl)).2 (by decide)⟩

/-- Claim C4: once the error latch is set, each of the five `Set*`
operations is a no-op — the encoder state (latched error, method, and
both sub-encoder traces) is returned unchanged and nothing is forwarded
to either sub-encoder. -/
theorem latched_error_makes_set_ops_noop
    (e : Encoder) (msg : String) (t : Target) (k : String) (v meta : Nat)
    (he : e.err = some msg) :
    e.SetValue t k v meta = e ∧
    e.SetStream t k v meta = e ∧
    e.SetList t k v meta = e ∧
    e.SetMap t k v meta = e ∧
    e.SetFields t k v meta = e := by
  refine ⟨?_, ?_, ?_, ?_, ?_⟩ <;>
    simp [Encoder.SetValue, Encoder.SetStream, Encoder.SetList, Encoder.SetMap,
      Encoder.SetFields, he]

/-- Witness for C4: after a bad `SetStream` latches an error, a
subsequent `SetValue` with a perfectly valid query target changes
nothing. -/
theorem latched_error_makes_set_ops_noop_witness :
    ((NewEncoder "POST").SetStream Target.Body "data" 0 0).err
      = some (streamErrMsg Target.Body) ∧
    ((NewEncoder "POST").SetStream Target.Body "data" 0 0).SetValue Target.Query "q" 1 0
      = (NewEncoder "POST").SetStream Target.Body "data" 0 0 :=
  ⟨rfl,
   (latched_error_makes_set_ops_noop
      ((NewEncoder "POST").SetStream Target.Body "data" 0 0)
      (streamErrMsg Target.Body) Target.Query "q" 1 0 rfl).1⟩

/-- Claim C5: `SetStream` forwards a `Payload`-targeted stream to the
REST (structural) encoder for every method string, and latches an error
for every other target, forwarding nothing to either sub-encoder. -/
theorem setStream_payload_only
    (e : Encoder) (t : Target) (k : String) (v meta : Nat)
    (he : e.err = none) :
    (t = Target.Payload →
      e.SetStream t k v meta =
        { e with reqEncoder := e.reqEncoder ++ [SubCall.stream t k v meta] }) ∧
    (t ≠ Target.Payload →
      e.SetStream t k v meta = { e with err := some (streamErrMsg t) }) := by
  constructor
  · intro ht; subst ht; simp [Encoder.SetStream, he]
  · intro ht; cases t <;>
      first
      | exact absurd rfl ht
      | simp [Encoder.SetStream, he]

/-- Witness for C5: on a `GET` encoder a `Payload` stream still goes to
the structural encoder (no method redirect), and a `Body` stream latches
an error. -/
theorem setStream_payload_only_witness :
    (NewEncoder "GET").SetStream Target.Payload "data" 7 0 =
      { NewEncoder "GET" with
          reqEncoder := (NewEncoder "GET").reqEncoder ++ [SubCall.stream Target.Payload "data" 7 0] } ∧
    (NewEncoder "GET").SetStream Target.Body "data" 7 0 =
      { NewEncoder "GET" with err := some (streamErrMsg Target.Body) } :=
  ⟨(setStream_payload_only (NewEncoder "GET") Target.Payload "data" 7 0 rfl).1 rfl,
   (setStream_payload_only (NewEncoder "GET") Target.Body "data" 7 0 rfl).2 (by decide)⟩

/-- Claim C7: `SetList`, `SetMap` and `SetFields` with target `Body`
always forward to the JSON (body) encoder, for every method string
(`GET` included): the GET redirect applies only to `SetValue`. -/
theorem body_collections_always_to_body_encoder
    (e : Encoder) (k : String) (fn m meta : Nat)
    (he : e.err = none) :
    e.SetList Target.Body k fn meta =
      { e with bodyEncoder := e.bodyEncoder ++ [SubCall.list Target.Body k fn meta] } ∧
    e.SetMap Target.Body k fn meta =
      { e with bodyEncoder := e.bodyEncoder ++ [SubCall.map Target.Body k fn meta] } ∧
    e.SetFields Target.Body k m meta =
      { e with bodyEncoder := e.bodyEncoder ++ [SubCall.fields Target.Body k m meta] } := by
  refine ⟨?_, ?_, ?_⟩ <;>
    simp [Encoder.SetList, Encoder.SetMap, Encoder.SetFields, he]

/-- Witness for C7 on a `GET` encoder: all three collection-shaped
operations with target `Body` reach the body encoder, not the
structural encoder. -/
theorem body_collections_always_to_body_encoder_witness :
    (NewEncoder "GET").SetList Target.Body "xs" 3 0 =
      { NewEncoder "GET" with
          bodyEncoder := (NewEncoder "GET").bodyEncoder ++ [SubCall.list Target.Body "xs" 3 0] } ∧
    (NewEncoder "GET").SetMap Target.Body "m" 4 0 =
      { NewEncoder "GET" with
          bodyEncoder := (NewEncoder "GET").bodyEncoder ++ [SubCall.map Target.Body "m" 4 0] } ∧
    (NewEncoder "GET").SetFields Target.Body "f" 5 0 =
      { NewEncoder "GET" with
          bodyEncoder := (NewEncoder "GET").bodyEncoder ++ [SubCall.fields Target.Body "f" 5 0] } :=
  ⟨(body_collections_always_to_body_encoder (NewEncoder "GET") "xs" 3 5 0 rfl).1,
   (body_collections_always_to_body_encoder (NewEncoder "GET") "m" 4 5 0 rfl).2.1,
   (body_collections_always_to_body_encoder (NewEncoder "GET") "f" 3 5 0 rfl).2.2⟩

/-- Claim C1 (evidence of a code defect): `Encode` never consults the
latched `err` field, so a routing error latched by an earlier `Set*`
call is silently dropped.  Concretely: after `SetValue` with the invalid
`Headers` target latches an error, `Encode` with cleanly finalizing
sub-encoders still returns a request and a nil error, contradicting the
claim (and `Encode`'s own documentation) that an error that occurred
while encoding is returned. -/
theorem encode_drops_latched_error :
    ((NewEncoder "POST").SetValue Target.Headers "k" 0 0).err =
      some (valueErrMsg Target.Headers "k") ∧
    (((NewEncoder "POST").SetValue Target.Headers "k" 0 0).Encode
        { restReq := some 1, restPayload := none, restErr := none,
          jsonBody := none, jsonErr := none }).2 =
      { req := some 1, body := none, err := none } :=
  ⟨rfl, rfl⟩

/-- Claim C3: when both the REST encoder's raw payload and the JSON
encoder's structured body are present at finalize time, `Encode` returns
the ambiguous-body error and neither a request nor a body. -/
theorem encode_both_bodies_is_ambiguous_error
    (e : Encoder) (env : FinalizeEnv)
    (hre : env.restErr = none) (hje : env.jsonErr = none)
    (hp : env.restPayload.isSome = true) (hj : env.jsonBody.isSome = true) :
    (e.Encode env).2 =
      { req := none, body := none,
        err := some "unexpected JSON body and request payload for AWSMarshaler" } := by
  unfold Encoder.Encode
  rw [hre, hje]
  simp [hp, hj]

/-- Witness for C3: a payload stream and a JSON body together make
`Encode` fail with the ambiguous-body error and no request. -/
theorem encode_both_bodies_is_ambiguous_error_witness :
    ((NewEncoder "POST").Encode
        { restReq := some 1, restPayload := some 2, restErr := none,
          jsonBody := some 3, jsonErr := none }).2 =
      { req := none, body := none,
        err := some "unexpected JSON body and request payload for AWSMarshaler" } :=
  encode_both_bodies_is_ambiguous_error (NewEncoder "POST")
    { restReq := some 1, restPayload := some 2, restErr := none,
      jsonBody := some 3, jsonErr := none } rfl rfl rfl rfl

/-- Claim C6: when `Encode` succeeds (no finalize error and not both
bodies present), the result carries the finalized request and no error,
and the body is the raw payload reader if present, else the JSON body
reader (so absent when neither sub-encoder produced a body). -/
theorem encode_success_body_selection
    (e : Encoder) (env : FinalizeEnv)
    (hre : env.restErr = none) (hje : env.jsonErr = none)
    (hboth : ¬(env.restPayload.isSome = true ∧ env.jsonBody.isSome = true)) :
    (e.Encode env).2.err = none ∧
    (e.Encode env).2.req = env.restReq ∧
    (∀ b, env.restPayload = some b → (e.Encode env).2.body = some b) ∧
    (env.restPayload = none → (e.Encode env).2.body = env.jsonBody) := by
  unfold Encoder.Encode
  rw [hre, hje]
  rcases hp : env.restPayload with _ | b <;>
    rcases hj : env.jsonBody with _ | c <;>
    simp [hp, hj] at hboth ⊢

/-- Witness for C6: neither sub-encoder produced a body — the result has
the request, an absent body, and no error. -/
theorem encode_success_body_selection_witness :
    (((NewEncoder "GET").Encode
        { restReq := some 1, restPayload := none, restErr := none,
          jsonBody := none, jsonErr := none }).2.err = none) ∧
    (((NewEncoder "GET").Encode
        { restReq := some 1, restPayload := none, restErr := none,
          jsonBody := none, jsonErr := none }).2.body = none) :=
  have h := encode_success_body_selection (NewEncoder "GET")
    { restReq := some 1, restPayload := none, restErr := none,
      jsonBody := none, jsonErr := none } rfl rfl (by decide)
  ⟨h.1, h.2.2.2 rfl⟩

/-- Claim C10: `Encode` never mutates the composite encoder's own state:
the method string, the latched error, and both stored sub-encoder states
are unchanged by the call. -/
theorem encode_preserves_encoder_state (e : Encoder) (env : FinalizeEnv) :
    (e.Encode env).1.method = e.method ∧
    (e.Encode env).1.err = e.err ∧
    (e.Encode env).1.reqEncoder = e.reqEncoder ∧
    (e.Encode env).1.bodyEncoder = e.bodyEncoder := by
  have h : (e.Encode env).1 = e := by
    unfold Encoder.Encode
    cases env.restErr <;> cases env.jsonErr <;> simp
    split <;> rfl
  exact ⟨by rw [h], by rw [h], by rw [h], by rw [h]⟩

/-- Claim C8: for each `Set*` operation, every target outside that
operation's valid set latches the operation's routing error and leaves
both sub-encoder traces (and the method) unchanged — nothing is
forwarded on the error path. -/
theorem invalid_target_latches_and_preserves_subencoders
    (e : Encoder) (t : Target) (k : String) (v meta : Nat)
    (he : e.err = none) :
    (t = Target.Headers →
      e.SetValue t k v meta = { e with err := some (valueErrMsg t k) }) ∧
    (t ≠ Target.Payload →
      e.SetStream t k v meta = { e with err := some (streamErrMsg t) }) ∧
    ((t = Target.Path ∨ t = Target.Headers ∨ t = Target.Payload) →
      e.SetList t k v meta = { e with err := some (listErrMsg t k) }) ∧
    ((t = Target.Path ∨ t = Target.Header ∨ t = Target.Payload) →
      e.SetMap t k v meta = { e with err := some (mapErrMsg t k) }) ∧
    ((t = Target.Path ∨ t = Target.Query ∨ t = Target.Header ∨ t = Target.Headers) →
      e.SetFields t k v meta = { e with err := some (fieldsErrMsg t k) }) := by
  refine ⟨?_, ?_, ?_, ?_, ?_⟩ <;> intro ht
  · subst ht; simp [Encoder.SetValue, he]
  · cases t <;> first
      | exact absurd rfl ht
      | simp [Encoder.SetStream, he]
  · rcases ht with rfl | rfl | rfl <;> simp [Encoder.SetList, he]
  · rcases ht with rfl | rfl | rfl <;> simp [Encoder.SetMap, he]
  · rcases ht with rfl | rfl | rfl | rfl <;> simp [Encoder.SetFields, he]

/-- Witness for C8 at concrete invalid targets: `Headers` for
`SetValue`, `Header` for `SetMap`, `Query` for `SetFields` each latch
the routing error and touch nothing else. -/
theorem invalid_target_latches_and_preserves_subencoders_witness :
    (NewEncoder "POST").SetValue Target.Headers "k" 0 0 =
      { NewEncoder "POST" with err := some (valueErrMsg Target.Headers "k") } ∧
    (NewEncoder "POST").SetMap Target.Header "k" 0 0 =
      { NewEncoder "POST" with err := some (mapErrMsg Target.Header "k") } ∧
    (NewEncoder "POST").SetFields Target.Query "k" 0 0 =
      { NewEncoder "POST" with err := some (fieldsErrMsg Target.Query "k") } :=
  ⟨(invalid_target_latches_and_preserves_subencoders (NewEncoder "POST")
      Target.Headers "k" 0 0 rfl).1 rfl,
   (invalid_target_latches_and_preserves_subencoders (NewEncoder "POST")
      Target.Header "k" 0 0 rfl).2.2.2.1 (Or.inr (Or.inl rfl)),
   (invalid_target_latches_and_preserves_subencoders (NewEncoder "POST")
      Target.Query "k" 0 0 rfl).2.2.2.2 (Or.inr (Or.inl rfl))⟩

/-- Counterexample to Claim C9 as stated: the message latched for an
invalid `SetFields` target is
`unknown SetMarshaler restjson encode target, Path, mykey` — it does not
name `SetFields`; and the message latched for an invalid `SetStream`
target does not contain the caller's key at all. -/
theorem routing_error_message_counterexample :
    ((NewEncoder "POST").SetFields Target.Path "mykey" 0 0).err =
      some "unknown SetMarshaler restjson encode target, Path, mykey" ∧
    namesPart "SetFields"
      (((NewEncoder "POST").SetFields Target.Path "mykey" 0 0).err.getD "") = false ∧
    namesPart "mykey"
      (((NewEncoder "POST").SetStream Target.Body "mykey" 0 0).err.getD "") = false := by
  refine ⟨?_, ?_, ?_⟩ <;> decide

/-- Claim C9 as amended: for every invalid target, `SetValue`, `SetList`
and `SetMap` latch a message naming the operation and the caller's key;
`SetStream` latches a message naming the operation and the target but
not the key; `SetFields` latches a message containing the target and the
key but naming the operation `SetMarshaler` rather than `SetFields`. -/
theorem routing_error_messages_amended
    (e : Encoder) (t : Target) (k : String) (v meta : Nat)
    (he : e.err = none) :
    (t = Target.Headers →
      (e.SetValue t k v meta).err = some (valueErrMsg t k) ∧
      namesPart "SetValue" (valueErrMsg t k) = true ∧
      namesPart k (valueErrMsg t k) = true) ∧
    (t ≠ Target.Payload →
      (e.SetStream t k v meta).err = some (streamErrMsg t) ∧
      namesPart "SetStream" (streamErrMsg t) = true) ∧
    ((t = Target.Path ∨ t = Target.Headers ∨ t = Target.Payload) →
      (e.SetList t k v meta).err = some (listErrMsg t k) ∧
      namesPart "SetList" (listErrMsg t k) = true ∧
      namesPart k (listErrMsg t k) = true) ∧
    ((t = Target.Path ∨ t = Target.Header ∨ t = Target.Payload) →
      (e.SetMap t k v meta).err = some (mapErrMsg t k) ∧
      namesPart "SetMap" (mapErrMsg t k) = true ∧
      namesPart k (mapErrMsg t k) = true) ∧
    ((t = Target.Path ∨ t = Target.Query ∨ t = Target.Header ∨ t = Target.Headers) →
      (e.SetFields t k v meta).err = some (fieldsErrMsg t k) ∧
      namesPart "SetMarshaler" (fieldsErrMsg t k) = true ∧
      namesPart k (fieldsErrMsg t k) = true) := by
  refine ⟨?_, ?_, ?_, ?_, ?_⟩ <;> intro ht
  · subst ht
    exact ⟨by simp [Encoder.SetValue, he],
      namesPart_left _ _ k (by decide), namesPart_right k _⟩
  · cases t <;> first
      | exact absurd rfl ht
      | exact ⟨by simp [Encoder.SetStream, he], by decide⟩
  · rcases ht with rfl | rfl | rfl <;>
      exact ⟨by simp [Encoder.SetList, he],
        namesPart_left _ _ k (by decide), namesPart_right k _⟩
  · rcases ht with rfl | rfl | rfl <;>
      exact ⟨by simp [Encoder.SetMap, he],
        namesPart_left _ _ k (by decide), namesPart_right k _⟩
  · rcases ht with rfl | rfl | rfl | rfl <;>
      exact ⟨by simp [Encoder.SetFields, he],
        namesPart_left _ _ k (by decide), namesPart_right k _⟩

/-- Witness for the amended C9 at a concrete input: an invalid
`SetFields` call latches a message naming `SetMarshaler` and the key. -/
theorem routing_error_messages_amended_witness :
    ((NewEncoder "POST").SetFields Target.Query "f1" 0 0).err =
      some (fieldsErrMsg Target.Query "f1") ∧
    namesPart "SetMarshaler" (fieldsErrMsg Target.Query "f1") = true ∧
    namesPart "f1" (fieldsErrMsg Target.Query "f1") = true :=
  (routing_error_messages_amended (NewEncoder "POST") Target.Query "f1" 0 0
    rfl).2.2.2.2 (Or.inr (Or.inl rfl))

end RestJson
